import Mathlib

/-!
Shallow embedding of the async-messages crate (src/msg_future.rs and
src/bindings.rs): an awaitable that waits for new messages on the calling
thread's message queue.

Kernel calls are modelled by an environment `Env` that fixes the result of
every syscall, and every embedded operation additionally returns the list of
`Event`s it emitted, in program order.  Machine integers are `Nat` (the flag
words are `u16`/`u32` values, composed by `make_dword` exactly as the source
does).  Fallible calls return `Except Nat _` where the `Nat` is the OS error
code.  Panics (a failed `unwrap`) and the sequentially-divergent spin loop
are recorded as trace events rather than performed.
-/

/-- Trace events: one constructor per kernel interaction performed by the
source, plus events for waker handling, the escalation of a failed
`NtUserClearWakeMask().unwrap()` (`fatal`) and the busy spin on
`waker_in_use` (`spin`). -/
inductive Event where
  | tryReadonlyStatus (w : Nat)
  | getQueueStatus (w : Nat)
  | createThreadpoolWait
  | getInputEvent (w : Nat)
  | cancelCompletionPacket
  | setWaitForQueueAttach (b : Bool)
  | armWait
  | disarmWait
  | waitForCallbacks
  | closeWait
  | clearWakeMask
  | reassociatePacket
  | acquireWakerFlag
  | releaseWakerFlag
  | wake (w : Nat)
  | fatal
  | spin
deriving DecidableEq

/-- The syscall environment: the result each kernel call would return.
`disarmUnset` is the boolean returned by `SetThreadpoolWaitEx` in the
destructor (`true` = the wait was still pending and was unset, `false` = the
wait was already firing).  `callbackFiresBeforeArmCas` injects the one
concurrency window the source handles explicitly: the thread-pool callback
running between `SetThreadpoolWait` and the final compare-exchange. -/
structure Env where
  readonlyStatus : Nat → Except Nat Nat
  queueStatus : Nat → Except Nat Nat
  createWait : Except Nat Unit
  inputEvent : Nat → Except Nat Nat
  queueAttach : Except Nat Nat
  reassocResult : Except Nat Nat
  clearWakeMaskOk : Bool
  disarmUnset : Bool
  callbackFiresBeforeArmCas : Bool

/-- `InputEventFutureState`, `#[repr(u32)]` in the source with discriminants
0,1,2,3. -/
inductive InputEventFutureState where
  | NotPending
  | Pending
  | Ready
  | Cancelled
deriving DecidableEq

/-- The `u32` discriminant stored in the `AtomicU32` state field. -/
def InputEventFutureState.val : InputEventFutureState → Nat
  | .NotPending => 0
  | .Pending => 1
  | .Ready => 2
  | .Cancelled => 3

/-- `InputEventFutureShared`: the record shared between the polling task and
the thread-pool callback.  The waker is modelled by an opaque identifier. -/
structure InputEventFutureShared where
  state : InputEventFutureState
  waker_in_use : Bool
  waker : Option Nat
deriving DecidableEq

/-- `impl Default for InputEventFutureShared`. -/
def InputEventFutureShared.new : InputEventFutureShared :=
  { state := .NotPending, waker_in_use := false, waker := none }

/-- `InputEventFuture`: flag halves are the `u16` fields; `input_event` is
`Some` while a `ConfiguredInputEvent` is held; `ptp_wait` is `true` while the
`Owned<PTP_WAIT>` is non-null. -/
structure InputEventFuture where
  queue_status_flags : Nat
  wait_flags : Nat
  input_event : Option Unit
  shared : InputEventFutureShared
  ptp_wait : Bool
deriving DecidableEq

/-- `make_dword`: `(low as u32) | ((high as u32) << 16)`. -/
def make_dword (low high : Nat) : Nat :=
  low ||| (high <<< 16)

/-- `MWMO_WAITALL` (0x0001). -/
def MWMO_WAITALL : Nat := 0x0001

/-- `MWMO_ALERTABLE` (0x0002). -/
def MWMO_ALERTABLE : Nat := 0x0002

/-- `MWMO_QUEUEATTACH`, declared in the source as
`MSG_WAIT_FOR_MULTIPLE_OBJECTS_EX_FLAGS(0x0008)`, i.e. a wait-flags value. -/
def MWMO_QUEUEATTACH : Nat := 0x0008

/-- `E_INVALIDARG` as an error code. -/
def E_INVALIDARG : Nat := 0x80070057

/-- src/bindings.rs `NtUserGetQueueStatusReadonly`: try the read-only
win32u export; on its failure fall back to `NtUserGetQueueStatus` with the
same word (`or_else`).  Returns the result together with the calls made. -/
def NtUserGetQueueStatusReadonly (env : Env) (w : Nat) :
    Except Nat Nat × List Event :=
  match env.readonlyStatus w with
  | .ok v => (.ok v, [.tryReadonlyStatus w])
  | .error _ => (env.queueStatus w, [.tryReadonlyStatus w, .getQueueStatus w])

/-- `ConfiguredInputEvent::new`: fetch the thread's input event with the
composed wake-mask word, then best-effort cancel the queue event completion
packet (its result is discarded by the source). -/
def ConfiguredInputEvent.new (env : Env) (queue_status_flags wait_flags : Nat) :
    Except Nat Unit × List Event :=
  match env.inputEvent (make_dword queue_status_flags wait_flags) with
  | .error e => (.error e, [.getInputEvent (make_dword queue_status_flags wait_flags)])
  | .ok _ => (.ok (),
      [.getInputEvent (make_dword queue_status_flags wait_flags), .cancelCompletionPacket])

/-- `impl Drop for ConfiguredInputEvent`: `NtUserClearWakeMask().unwrap()`
followed by a discarded `NtUserReassociateQueueEventCompletionPacket()`.
A failing clear panics (`fatal`) before the reassociate call is reached. -/
def ConfiguredInputEvent.dropEvents (env : Env) : List Event :=
  if env.clearWakeMaskOk then [.clearWakeMask, .reassociatePacket]
  else [.clearWakeMask, .fatal]

/-- `InputEventFuture::ready`: drop the configured input event and the owned
pool wait via `Option::take` / `mem::take`, then return
`Poll::Ready(Ok(MessageIterator::default()))`. -/
def InputEventFuture.ready (env : Env) (f : InputEventFuture) :
    InputEventFuture × List Event :=
  ({ f with input_event := none, ptp_wait := false },
    (match f.input_event with
      | some _ => ConfiguredInputEvent.dropEvents env
      | none => []) ++
    (if f.ptp_wait then [Event.closeWait] else []))

/-- `InputEventFutureShared::wait_done` (run by the thread-pool callback):
swap `state` to `Ready` unconditionally; if the prior state was not
`Pending`, return without touching the waker; otherwise spin-acquire
`waker_in_use`, wake the stored waker by reference (`unwrap` panics if it is
absent) and release the flag. -/
def InputEventFutureShared.wait_done (s : InputEventFutureShared) :
    InputEventFutureShared × List Event :=
  if s.state ≠ .Pending then ({ s with state := .Ready }, [])
  else if s.waker_in_use then ({ s with state := .Ready }, [.spin])
  else
    match s.waker with
    | none => ({ s with state := .Ready }, [.acquireWakerFlag, .fatal])
    | some w => ({ s with state := .Ready },
        [.acquireWakerFlag, .wake w, .releaseWakerFlag])

/-- Result of one call to `Future::poll`: `Poll::Pending`,
`Poll::Ready(Ok(MessageIterator::default()))` (`ReadyOk`: a fresh drain
iterator), or `Poll::Ready(Err(e))` from a `?` propagation (`Err e`). -/
inductive PollRes where
  | Pending
  | ReadyOk
  | Err (e : Nat)
deriving DecidableEq

/-- Tail of the slow path after the optional queue-attach syscall succeeded:
store the waker, move the created wait into `ptp_wait` (dropping any old
one), arm the pool wait on the input event, then compare-exchange
`NotPending → Pending`; on CAS failure (a callback fired meanwhile, which
`callbackFiresBeforeArmCas` injects as a `wait_done` run) resolve via
`ready`. -/
def pollArmTail (env : Env) (cx : Nat) (f : InputEventFuture)
    (tr : List Event) : PollRes × InputEventFuture × List Event :=
  let trOldWait := if f.ptp_wait then [Event.closeWait] else []
  let f1 : InputEventFuture :=
    { f with shared := { f.shared with waker := some cx }, ptp_wait := true }
  let tr1 := tr ++ trOldWait ++ [Event.armWait]
  if env.callbackFiresBeforeArmCas then
    let cb := f1.shared.wait_done
    let f2 : InputEventFuture := { f1 with shared := cb.1 }
    let r := f2.ready env
    (.ReadyOk, r.1, tr1 ++ cb.2 ++ r.2)
  else
    if f1.shared.state = .NotPending then
      (.Pending, { f1 with shared := { f1.shared with state := .Pending } }, tr1)
    else
      let r := f1.ready env
      (.ReadyOk, r.1, tr1 ++ r.2)

/-- `<InputEventFuture as Future>::poll`.  Note that the queue-attach test of
the source reads `self.queue_status_flags & (MWMO_QUEUEATTACH.0 as u16)`,
i.e. it tests the low (queue-status) half, not the wait-flags half. -/
def InputEventFuture.poll (env : Env) (cx : Nat) (f : InputEventFuture) :
    PollRes × InputEventFuture × List Event :=
  if f.shared.state = .Ready then
    let r := f.ready env
    (.ReadyOk, r.1, r.2)
  else if f.shared.state = .Pending then
    if f.shared.waker_in_use then
      (.Pending, f, [])
    else
      (.Pending, { f with shared := { f.shared with waker := some cx } }, [])
  else
    match NtUserGetQueueStatusReadonly env (make_dword f.queue_status_flags f.wait_flags) with
    | (.error e, tr) => (.Err e, f, tr)
    | (.ok v, tr) =>
      if v > 0 then
        (.ReadyOk, f, tr)
      else
        match env.createWait with
        | .error e => (.Err e, f, tr ++ [.createThreadpoolWait])
        | .ok _ =>
          match ConfiguredInputEvent.new env f.queue_status_flags f.wait_flags with
          | (.error e, tr2) => (.Err e, f, tr ++ [.createThreadpoolWait] ++ tr2)
          | (.ok _, tr2) =>
            let trOld := match f.input_event with
              | some _ => ConfiguredInputEvent.dropEvents env
              | none => []
            let f1 : InputEventFuture := { f with input_event := some () }
            let tr3 := tr ++ [Event.createThreadpoolWait] ++ tr2 ++ trOld
            if f1.queue_status_flags &&& MWMO_QUEUEATTACH ≠ 0 then
              match env.queueAttach with
              | .error e =>
                (.Err e, f1, tr3 ++ [.setWaitForQueueAttach true, .closeWait])
              | .ok _ =>
                pollArmTail env cx f1 (tr3 ++ [.setWaitForQueueAttach true])
            else
              pollArmTail env cx f1 tr3

/-- `impl Drop for InputEventFuture`, followed by the implicit drop of the
fields in declaration order: compare-exchange `Pending → Cancelled`; on
success disarm the pool wait with `SetThreadpoolWaitEx`, and when that
reports the wait already firing, block in
`WaitForThreadpoolWaitCallbacks`; then the `ConfiguredInputEvent` and the
`Owned<PTP_WAIT>` fields are dropped. -/
def InputEventFuture.drop (env : Env) (f : InputEventFuture) :
    InputEventFuture × List Event :=
  let casOk := f.shared.state = InputEventFutureState.Pending
  let s1 := if casOk then { f.shared with state := .Cancelled } else f.shared
  let trCancel :=
    if casOk then
      if env.disarmUnset then [Event.disarmWait]
      else [Event.disarmWait, Event.waitForCallbacks]
    else []
  let trIe := match f.input_event with
    | some _ => ConfiguredInputEvent.dropEvents env
    | none => []
  let trWait := if f.ptp_wait then [Event.closeWait] else []
  ({ f with shared := s1, input_event := none, ptp_wait := false },
    trCancel ++ trIe ++ trWait)

/-- `InputEventFuture::new` with already-validated `u16` halves. -/
def InputEventFuture.new (queue_status_flags wait_flags : Nat) : InputEventFuture :=
  { queue_status_flags := queue_status_flags
    wait_flags := wait_flags
    input_event := none
    shared := InputEventFutureShared.new
    ptp_wait := false }

/-- `wait_for_messages`: reject alertable/wait-all wait flags, then both
`try_into::<u16>()` conversions, then construct the future.  The function
performs no syscall (it takes no `Env`). -/
def wait_for_messages (queue_status_flags wait_flags : Nat) :
    Except Nat InputEventFuture :=
  if wait_flags &&& (MWMO_ALERTABLE ||| MWMO_WAITALL) ≠ 0 then
    .error E_INVALIDARG
  else if queue_status_flags ≥ 2 ^ 16 then .error E_INVALIDARG
  else if wait_flags ≥ 2 ^ 16 then .error E_INVALIDARG
  else .ok (InputEventFuture.new queue_status_flags wait_flags)

/-- Abstract kernel-side bookkeeping driven by the emitted trace: whether the
thread's wake mask is currently set, and whether a pool-wait object exists
and is armed. -/
structure KState where
  wakeMaskSet : Bool
  waitExists : Bool
  waitArmed : Bool
deriving DecidableEq

/-- Effect of a single trace event on the kernel-side bookkeeping. -/
def kstep (k : KState) : Event → KState
  | .getInputEvent _ => { k with wakeMaskSet := true }
  | .clearWakeMask => { k with wakeMaskSet := false }
  | .createThreadpoolWait => { k with waitExists := true }
  | .armWait => { k with waitArmed := true }
  | .disarmWait => { k with waitArmed := false }
  | .closeWait => { k with waitExists := false, waitArmed := false }
  | _ => k

/-- Run a whole trace through the kernel-side bookkeeping. -/
def runK (k : KState) (tr : List Event) : KState :=
  List.foldl kstep k tr

/-- One operation applied to the future: a poll (under some environment and
waker), a thread-pool callback run (`wait_done` on the shared record), or
the destructor. -/
inductive FutureOp where
  | pollOp (env : Env) (cx : Nat)
  | callbackOp
  | dropOp (env : Env)

/-- Apply one operation to the future. -/
def applyOp (f : InputEventFuture) : FutureOp → InputEventFuture
  | .pollOp env cx => (InputEventFuture.poll env cx f).2.1
  | .callbackOp => { f with shared := f.shared.wait_done.1 }
  | .dropOp env => (InputEventFuture.drop env f).1

/-- Apply a sequence of operations to the future. -/
def runOps (f : InputEventFuture) (ops : List FutureOp) : InputEventFuture :=
  List.foldl applyOp f ops

/-! ### Concrete environments and futures used by witnesses -/

/-- Every syscall succeeds and the probe reports an empty queue. -/
def envOk : Env where
  readonlyStatus := fun _ => .ok 0
  queueStatus := fun _ => .ok 0
  createWait := .ok ()
  inputEvent := fun _ => .ok 1
  queueAttach := .ok 0
  reassocResult := .ok 0
  clearWakeMaskOk := true
  disarmUnset := true
  callbackFiresBeforeArmCas := false

/-- The probe reports a nonzero status word (messages already queued). -/
def envMsgs : Env :=
  { envOk with readonlyStatus := fun _ => .ok 1 }

/-- The read-only status export is unavailable and the fallback succeeds. -/
def envFallback : Env :=
  { envOk with readonlyStatus := fun _ => .error 1,
               queueStatus := fun _ => .ok 9 }

/-- Both status calls fail with error code 5. -/
def envProbeFail : Env :=
  { envOk with readonlyStatus := fun _ => .error 5,
               queueStatus := fun _ => .error 5 }

/-- Syscalls succeed but the disarm call reports the wait already firing. -/
def envFire : Env :=
  { envOk with disarmUnset := false }

/-- A cancelled future (the destructor won the compare-exchange). -/
def futCancelled : InputEventFuture :=
  { queue_status_flags := 0, wait_flags := 0, input_event := none
    shared := { state := .Cancelled, waker_in_use := false, waker := none }
    ptp_wait := false }

/-- A resolved future that still holds its input event and pool wait. -/
def futReadyFull : InputEventFuture :=
  { queue_status_flags := 0, wait_flags := 0, input_event := some ()
    shared := { state := .Ready, waker_in_use := false, waker := none }
    ptp_wait := true }

/-- A pending future holding its input event, pool wait and a waker. -/
def futArmed : InputEventFuture :=
  { queue_status_flags := 0, wait_flags := 0, input_event := some ()
    shared := { state := .Pending, waker_in_use := false, waker := some 3 }
    ptp_wait := true }

/-- Kernel bookkeeping with the wake mask set and an armed pool wait. -/
def kAll : KState :=
  { wakeMaskSet := true, waitExists := true, waitArmed := true }

/-! ### Helper lemmas -/

/-- The low two bits of the wait-flags word, as the source masks them. -/
theorem and_three_ne_iff (w : Nat) :
    w &&& 3 ≠ 0 ↔ (w.testBit 1 ∨ w.testBit 0) := by
  have h3 : w &&& 3 = w % 4 := by
    have h := Nat.and_pow_two_sub_one_eq_mod w 2
    norm_num at h
    exact h
  have ht0 : w.testBit 0 = decide (w / 2 ^ 0 % 2 = 1) := Nat.testBit_to_div_mod
  have ht1 : w.testBit 1 = decide (w / 2 ^ 1 % 2 = 1) := Nat.testBit_to_div_mod
  rw [h3, ht0, ht1]
  simp only [pow_zero, pow_one, Nat.div_one, decide_eq_true_eq]
  omega

/-- The probe emits only status-query events. -/
theorem probe_trace_shape (env : Env) (w : Nat) :
    (NtUserGetQueueStatusReadonly env w).2 = [Event.tryReadonlyStatus w] ∨
    (NtUserGetQueueStatusReadonly env w).2 =
      [Event.tryReadonlyStatus w, Event.getQueueStatus w] := by
  unfold NtUserGetQueueStatusReadonly
  cases env.readonlyStatus w <;> simp

/-- Dropping a configured input event never arms a pool wait. -/
theorem armWait_not_mem_dropEvents (env : Env) :
    Event.armWait ∉ ConfiguredInputEvent.dropEvents env := by
  unfold ConfiguredInputEvent.dropEvents
  cases h : env.clearWakeMaskOk <;> simp

/-- `ready` leaves the shared record untouched. -/
theorem ready_shared (env : Env) (f : InputEventFuture) :
    (f.ready env).1.shared = f.shared := rfl

/-- The callback's swap always leaves the state `Ready`. -/
theorem wait_done_state (s : InputEventFutureShared) :
    s.wait_done.1.state = InputEventFutureState.Ready := by
  unfold InputEventFutureShared.wait_done
  split
  · rfl
  split
  · rfl
  split <;> rfl

/-- The destructor's only write to the state field is the
`Pending → Cancelled` compare-exchange. -/
theorem drop_state (env : Env) (f : InputEventFuture) :
    (f.drop env).1.shared.state =
      if f.shared.state = InputEventFutureState.Pending
      then InputEventFutureState.Cancelled else f.shared.state := by
  unfold InputEventFuture.drop
  by_cases h : f.shared.state = InputEventFutureState.Pending <;> simp [h]

/-! ### C1 -/

/-- Claim C1 (code bug): the source tests `queue_status_flags & 0x0008`
rather than `wait_flags & 0x0008`.  With the exported wait-flags constant
`MWMO_QUEUEATTACH` passed as `wait_flags` (queue-status word 0), the first
poll never invokes the set-wait-for-queue-attach syscall; with the bit in
the queue-status word instead (and absent from `wait_flags`) the syscall is
invoked. -/
theorem c1_queue_attach_code_bug :
    wait_for_messages 0 MWMO_QUEUEATTACH =
      Except.ok (InputEventFuture.new 0 MWMO_QUEUEATTACH) ∧
    Event.setWaitForQueueAttach true ∉
      (InputEventFuture.poll envOk 0 (InputEventFuture.new 0 MWMO_QUEUEATTACH)).2.2 ∧
    Event.setWaitForQueueAttach true ∈
      (InputEventFuture.poll envOk 0 (InputEventFuture.new MWMO_QUEUEATTACH 0)).2.2 := by
  refine ⟨rfl, ?_, ?_⟩ <;> decide

/-! ### C6 -/

/-- Claim C6: the thread-pool callback (`wait_done`) returns without
touching the waker whenever the state it replaced was not `Pending`
(empty event list, shared record only has its state swapped to `Ready`);
when the prior state was `Pending` and the spin flag is free it acquires
`waker_in_use`, wakes the stored waker by reference and releases the
flag. -/
theorem c6_callback_waker (s : InputEventFutureShared) (w : Nat) :
    (s.state ≠ InputEventFutureState.Pending →
      s.wait_done = ({ s with state := .Ready }, [])) ∧
    (s.state = InputEventFutureState.Pending → s.waker_in_use = false →
      s.waker = some w →
      s.wait_done = ({ s with state := .Ready },
        [Event.acquireWakerFlag, Event.wake w, Event.releaseWakerFlag]) ∧
      s.wait_done.1.waker_in_use = false ∧
      s.wait_done.1.waker = s.waker) := by
  unfold InputEventFutureShared.wait_done
  constructor
  · intro h
    simp [h]
  · intro h1 h2 h3
    simp [h1, h2, h3]

/-- Concrete run of C6 on a pending shared record with waker 7. -/
theorem c6_callback_waker_witness :
    InputEventFutureShared.wait_done
      { state := .Pending, waker_in_use := false, waker := some 7 } =
      ({ state := .Ready, waker_in_use := false, waker := some 7 },
        [Event.acquireWakerFlag, Event.wake 7, Event.releaseWakerFlag]) :=
  ((c6_callback_waker
      { state := .Pending, waker_in_use := false, waker := some 7 } 7).2
    rfl rfl rfl).1

/-! ### C7 -/

/-- Claim C7: every drop of the configured input event first clears the
wake mask; a failure of that call escalates (`fatal`) and skips the
reassociate call, while on success the completion packet is reassociated
best-effort, with the reassociate result ignored entirely. -/
theorem c7_cie_drop_order (env : Env) :
    (ConfiguredInputEvent.dropEvents env).head? = some Event.clearWakeMask ∧
    (env.clearWakeMaskOk = true →
      ConfiguredInputEvent.dropEvents env =
        [Event.clearWakeMask, Event.reassociatePacket]) ∧
    (env.clearWakeMaskOk = false →
      ConfiguredInputEvent.dropEvents env = [Event.clearWakeMask, Event.fatal] ∧
      Event.reassociatePacket ∉ ConfiguredInputEvent.dropEvents env) ∧
    (∀ r, ConfiguredInputEvent.dropEvents { env with reassocResult := r } =
      ConfiguredInputEvent.dropEvents env) := by
  unfold ConfiguredInputEvent.dropEvents
  cases h : env.clearWakeMaskOk <;> simp [h]

/-- Concrete run of C7 in the all-success environment. -/
theorem c7_cie_drop_order_witness :
    ConfiguredInputEvent.dropEvents envOk =
      [Event.clearWakeMask, Event.reassociatePacket] :=
  (c7_cie_drop_order envOk).2.1 rfl

/-! ### C8 -/

/-- Claim C8: for every wake-mask word the probe first attempts the
read-only variant; on success it returns the raw word with no further
call, and on failure it issues the standard get-queue-status call with
the same word, surfacing that call's result (value or error) unchanged. -/
theorem c8_readonly_probe (env : Env) (w : Nat) :
    (NtUserGetQueueStatusReadonly env w).2.head? =
      some (Event.tryReadonlyStatus w) ∧
    (∀ v, env.readonlyStatus w = Except.ok v →
      NtUserGetQueueStatusReadonly env w =
        (Except.ok v, [Event.tryReadonlyStatus w])) ∧
    (∀ e, env.readonlyStatus w = Except.error e →
      NtUserGetQueueStatusReadonly env w =
        (env.queueStatus w,
          [Event.tryReadonlyStatus w, Event.getQueueStatus w])) := by
  unfold NtUserGetQueueStatusReadonly
  cases h : env.readonlyStatus w <;> simp [h]

/-- Concrete run of C8 with the read-only export missing. -/
theorem c8_readonly_probe_witness :
    NtUserGetQueueStatusReadonly envFallback 3 =
      (Except.ok 9, [Event.tryReadonlyStatus 3, Event.getQueueStatus 3]) :=
  (c8_readonly_probe envFallback 3).2.2 1 rfl

/-! ### C4 -/

/-- Closed form of the entry-point validation: the alertable/wait-all mask
test and the two 16-bit range checks, expressed through individual bits. -/
theorem wfm_eq (q w : Nat) :
    wait_for_messages q w =
      if w.testBit 1 ∨ w.testBit 0 ∨ 2 ^ 16 ≤ q ∨ 2 ^ 16 ≤ w
      then Except.error E_INVALIDARG
      else Except.ok (InputEventFuture.new q w) := by
  have h32 : MWMO_ALERTABLE ||| MWMO_WAITALL = 3 := by decide
  have hb := and_three_ne_iff w
  unfold wait_for_messages
  rw [h32]
  by_cases h1 : w &&& 3 ≠ 0
  · rw [if_pos h1]
    have hc : w.testBit 1 ∨ w.testBit 0 ∨ 2 ^ 16 ≤ q ∨ 2 ^ 16 ≤ w := by
      rcases hb.mp h1 with h | h
      · exact Or.inl h
      · exact Or.inr (Or.inl h)
    rw [if_pos hc]
  · rw [if_neg h1]
    by_cases h2 : q ≥ 2 ^ 16
    · rw [if_pos h2, if_pos (Or.inr (Or.inr (Or.inl h2)))]
    · rw [if_neg h2]
      by_cases h3 : w ≥ 2 ^ 16
      · rw [if_pos h3, if_pos (Or.inr (Or.inr (Or.inr h3)))]
      · rw [if_neg h3, if_neg]
        rintro (h | h | h | h)
        · exact h1 (hb.mpr (Or.inl h))
        · exact h1 (hb.mpr (Or.inr h))
        · exact h2 h
        · exact h3 h

/-- Claim C4: `wait_for_messages` fails with `E_INVALIDARG` exactly when
the wait flags contain the alertable (0x0002) or wait-all (0x0001) bit or
either flag word does not fit in 16 bits; for all other inputs it returns
the freshly constructed future, which holds no input event, no pool wait
and a default shared record. -/
theorem c4_argument_validation (q w : Nat) :
    (wait_for_messages q w = Except.error E_INVALIDARG ↔
      (w.testBit 1 ∨ w.testBit 0 ∨ 2 ^ 16 ≤ q ∨ 2 ^ 16 ≤ w)) ∧
    (¬(w.testBit 1 ∨ w.testBit 0 ∨ 2 ^ 16 ≤ q ∨ 2 ^ 16 ≤ w) →
      wait_for_messages q w = Except.ok (InputEventFuture.new q w) ∧
      (InputEventFuture.new q w).input_event = none ∧
      (InputEventFuture.new q w).ptp_wait = false ∧
      (InputEventFuture.new q w).shared = InputEventFutureShared.new) := by
  have he := wfm_eq q w
  by_cases hc : (w.testBit 1 ∨ w.testBit 0 ∨ 2 ^ 16 ≤ q ∨ 2 ^ 16 ≤ w)
  · rw [if_pos hc] at he
    exact ⟨⟨fun _ => hc, fun _ => he⟩, fun hn => absurd hc hn⟩
  · rw [if_neg hc] at he
    refine ⟨⟨fun hbad => ?_, fun hcc => absurd hcc hc⟩,
      fun _ => ⟨he, rfl, rfl, rfl⟩⟩
    rw [he] at hbad
    exact absurd hbad (by simp)

/-- Concrete run of C4 on valid flag words. -/
theorem c4_argument_validation_witness :
    wait_for_messages 5 4 = Except.ok (InputEventFuture.new 5 4) :=
  (((c4_argument_validation 5 4).2) (by decide)).1

/-! ### C2 -/

/-- Counterexample to claim C2 as stated: from the `Cancelled` state a
single thread-pool callback changes the state field to `Ready`
(`wait_done` swaps unconditionally), so `Cancelled` is not terminal in
the claimed sense. -/
theorem c2_counterexample :
    futCancelled.shared.state = InputEventFutureState.Cancelled ∧
    (runOps futCancelled [FutureOp.callbackOp]).shared.state =
      InputEventFutureState.Ready ∧
    InputEventFutureState.Ready ≠ InputEventFutureState.Cancelled := by
  refine ⟨rfl, rfl, ?_⟩
  decide

/-- The slow-path tail either leaves the state as it found it, resolves
with the state already `Ready`, or performs the `NotPending → Pending`
compare-exchange. -/
theorem pollArmTail_state (env : Env) (cx : Nat) (f : InputEventFuture)
    (tr : List Event) :
    (pollArmTail env cx f tr).2.1.shared.state = f.shared.state ∨
    (pollArmTail env cx f tr).2.1.shared.state = InputEventFutureState.Ready ∨
    (f.shared.state = InputEventFutureState.NotPending ∧
      (pollArmTail env cx f tr).2.1.shared.state = InputEventFutureState.Pending) := by
  cases hcb : env.callbackFiresBeforeArmCas
  · by_cases hs : f.shared.state = InputEventFutureState.NotPending
    · right; right
      refine ⟨hs, ?_⟩
      simp [pollArmTail, hcb, hs]
    · left
      simp [pollArmTail, hcb, hs, InputEventFuture.ready]
  · right; left
    simp only [pollArmTail, hcb, if_true, ready_shared]
    exact wait_done_state _

/-- A poll either leaves the state field alone, observes/produces `Ready`,
or performs the `NotPending → Pending` compare-exchange. -/
theorem poll_state (env : Env) (cx : Nat) (f : InputEventFuture) :
    (f.poll env cx).2.1.shared.state = f.shared.state ∨
    (f.poll env cx).2.1.shared.state = InputEventFutureState.Ready ∨
    (f.shared.state = InputEventFutureState.NotPending ∧
      (f.poll env cx).2.1.shared.state = InputEventFutureState.Pending) := by
  unfold InputEventFuture.poll
  by_cases h1 : f.shared.state = InputEventFutureState.Ready
  · simp only [h1, if_pos]
    left
    rw [ready_shared, h1]
  · rw [if_neg h1]
    by_cases h2 : f.shared.state = InputEventFutureState.Pending
    · rw [if_pos h2]
      by_cases h3 : f.shared.waker_in_use
      · rw [if_pos h3]; left; rfl
      · rw [if_neg h3]; left; rfl
    · rw [if_neg h2]
      rcases hpr : NtUserGetQueueStatusReadonly env
          (make_dword f.queue_status_flags f.wait_flags) with ⟨r, tr⟩
      rcases r with e | v
      · left; rfl
      · simp only []
        by_cases hv : v > 0
        · rw [if_pos hv]; left; rfl
        · rw [if_neg hv]
          rcases hcw : env.createWait with e | u
          · left; rfl
          · rcases hcie : ConfiguredInputEvent.new env
                f.queue_status_flags f.wait_flags with ⟨rc, tr2⟩
            rcases rc with e | u2
            · left; rfl
            · simp only []
              by_cases hqa : ({ f with input_event := some () } :
                  InputEventFuture).queue_status_flags &&& MWMO_QUEUEATTACH ≠ 0
              · rw [if_pos hqa]
                rcases hq : env.queueAttach with e | v2
                · left; rfl
                · exact pollArmTail_state env cx _ _
              · rw [if_neg hqa]
                exact pollArmTail_state env cx _ _

/-- A single operation leaves a `Ready` state `Ready`. -/
theorem applyOp_ready (f : InputEventFuture) (op : FutureOp)
    (h : f.shared.state = InputEventFutureState.Ready) :
    (applyOp f op).shared.state = InputEventFutureState.Ready := by
  cases op with
  | pollOp env cx =>
    rcases poll_state env cx f with hs | hs | ⟨hn, _⟩
    · rw [applyOp, hs, h]
    · rw [applyOp, hs]
    · rw [h] at hn; exact absurd hn (by decide)
  | callbackOp =>
    exact wait_done_state f.shared
  | dropOp env =>
    show (f.drop env).1.shared.state = _
    rw [drop_state, if_neg (by rw [h]; decide), h]

/-- A single operation keeps the state inside `{Ready, Cancelled}`. -/
theorem applyOp_closed (f : InputEventFuture) (op : FutureOp)
    (h : f.shared.state = InputEventFutureState.Ready ∨
      f.shared.state = InputEventFutureState.Cancelled) :
    (applyOp f op).shared.state = InputEventFutureState.Ready ∨
    (applyOp f op).shared.state = InputEventFutureState.Cancelled := by
  rcases h with h | h
  · exact Or.inl (applyOp_ready f op h)
  · cases op with
    | pollOp env cx =>
      rcases poll_state env cx f with hs | hs | ⟨hn, _⟩
      · rw [applyOp, hs, h]; exact Or.inr rfl
      · rw [applyOp, hs]; exact Or.inl rfl
      · rw [h] at hn; exact absurd hn (by decide)
    | callbackOp =>
      exact Or.inl (wait_done_state f.shared)
    | dropOp env =>
      right
      show (f.drop env).1.shared.state = _
      rw [drop_state, if_neg (by rw [h]; decide), h]

/-- Claim C2, amended: `Ready` is terminal under every sequence of poll,
callback and drop operations; `Cancelled` never returns to `NotPending`
or `Pending` — every operation leaves the state in `{Ready, Cancelled}` —
but the thread-pool callback's unconditional swap may move it to `Ready`
(shown false as originally stated by `c2_counterexample`). -/
theorem c2_amended_terminality (f : InputEventFuture) (ops : List FutureOp) :
    (f.shared.state = InputEventFutureState.Ready →
      (runOps f ops).shared.state = InputEventFutureState.Ready) ∧
    ((f.shared.state = InputEventFutureState.Ready ∨
       f.shared.state = InputEventFutureState.Cancelled) →
      ((runOps f ops).shared.state = InputEventFutureState.Ready ∨
       (runOps f ops).shared.state = InputEventFutureState.Cancelled)) := by
  induction ops generalizing f with
  | nil => exact ⟨fun h => h, fun h => h⟩
  | cons op rest ih =>
    constructor
    · intro h
      exact (ih (applyOp f op)).1 (applyOp_ready f op h)
    · intro h
      exact (ih (applyOp f op)).2 (applyOp_closed f op h)

/-- Concrete run of the amended C2: a resolved future stays `Ready`
through a spurious callback followed by its destructor. -/
theorem c2_amended_terminality_witness :
    (runOps futReadyFull [FutureOp.callbackOp, FutureOp.dropOp envOk]).shared.state =
      InputEventFutureState.Ready :=
  (c2_amended_terminality futReadyFull
    [FutureOp.callbackOp, FutureOp.dropOp envOk]).1 rfl

/-! ### C3 -/

/-- Claim C3, fast-path completeness: on a first poll (state `NotPending`),
if the queue-status probe returns a nonzero word the poll returns
`Poll::Ready(Ok(MessageIterator::default()))` with the future completely
untouched, and the emitted trace consists of status-probe calls only — no
input-event acquisition, no pool-wait creation or arming, no waker store. -/
theorem c3_fast_path (env : Env) (cx v : Nat) (f : InputEventFuture)
    (h0 : f.shared.state = InputEventFutureState.NotPending)
    (hp : (NtUserGetQueueStatusReadonly env
            (make_dword f.queue_status_flags f.wait_flags)).1 = Except.ok v)
    (hv : 0 < v) :
    f.poll env cx = (PollRes.ReadyOk, f,
      (NtUserGetQueueStatusReadonly env
        (make_dword f.queue_status_flags f.wait_flags)).2) ∧
    (∀ ev ∈ (f.poll env cx).2.2,
      ev = Event.tryReadonlyStatus (make_dword f.queue_status_flags f.wait_flags) ∨
      ev = Event.getQueueStatus (make_dword f.queue_status_flags f.wait_flags)) := by
  have h1 : f.shared.state ≠ InputEventFutureState.Ready := by rw [h0]; decide
  have h2 : f.shared.state ≠ InputEventFutureState.Pending := by rw [h0]; decide
  have hdw := probe_trace_shape env (make_dword f.queue_status_flags f.wait_flags)
  rcases hpr : NtUserGetQueueStatusReadonly env
      (make_dword f.queue_status_flags f.wait_flags) with ⟨r, tr⟩
  rw [hpr] at hp hdw
  replace hp : r = Except.ok v := hp
  replace hdw : tr = _ ∨ tr = _ := hdw
  subst hp
  have hmain : f.poll env cx = (PollRes.ReadyOk, f, tr) := by
    unfold InputEventFuture.poll
    rw [if_neg h1, if_neg h2, hpr]
    simp [hv]
  refine ⟨by simp [hmain, hpr], ?_⟩
  rw [hmain]
  intro ev hev
  rcases hdw with h | h <;> subst h <;> simp at hev
  · exact Or.inl hev
  · tauto

/-- Concrete run of C3: messages already queued on the first poll. -/
theorem c3_fast_path_witness :
    InputEventFuture.poll envMsgs 0 (InputEventFuture.new 0 0) =
      (PollRes.ReadyOk, InputEventFuture.new 0 0,
        (NtUserGetQueueStatusReadonly envMsgs
          (make_dword (InputEventFuture.new 0 0).queue_status_flags
            (InputEventFuture.new 0 0).wait_flags)).2) :=
  (c3_fast_path envMsgs 0 1 (InputEventFuture.new 0 0) rfl rfl (by decide)).1

/-! ### C9 -/

/-- The configured-input-event constructor emits only its own two calls. -/
theorem cie_new_trace (env : Env) (q w : Nat) :
    (ConfiguredInputEvent.new env q w).2 = [Event.getInputEvent (make_dword q w)] ∨
    (ConfiguredInputEvent.new env q w).2 =
      [Event.getInputEvent (make_dword q w), Event.cancelCompletionPacket] := by
  unfold ConfiguredInputEvent.new
  cases env.inputEvent (make_dword q w) <;> simp

/-- The slow-path tail never returns an error. -/
theorem pollArmTail_no_err (env : Env) (cx : Nat) (f : InputEventFuture)
    (tr : List Event) (e : Nat) :
    (pollArmTail env cx f tr).1 ≠ PollRes.Err e := by
  cases hcb : env.callbackFiresBeforeArmCas
  · by_cases hs : f.shared.state = InputEventFutureState.NotPending <;>
      simp [pollArmTail, hcb, hs]
  · simp [pollArmTail, hcb]

/-- Claim C9, error atomicity of the first poll: whenever a first poll
(state `NotPending`, no waker stored) returns an error — from the probe,
the wait creation, the input-event acquisition or the queue-attach arming
— the shared state is still `NotPending`, no waker has been stored, and
the pool wait was never armed. -/
theorem c9_error_atomicity (env : Env) (cx e : Nat) (f : InputEventFuture)
    (h0 : f.shared.state = InputEventFutureState.NotPending)
    (hw : f.shared.waker = none)
    (herr : (f.poll env cx).1 = PollRes.Err e) :
    (f.poll env cx).2.1.shared.state = InputEventFutureState.NotPending ∧
    (f.poll env cx).2.1.shared.waker = none ∧
    Event.armWait ∉ (f.poll env cx).2.2 := by
  have h1 : f.shared.state ≠ InputEventFutureState.Ready := by rw [h0]; decide
  have h2 : f.shared.state ≠ InputEventFutureState.Pending := by rw [h0]; decide
  have hdw := probe_trace_shape env (make_dword f.queue_status_flags f.wait_flags)
  have hct := cie_new_trace env f.queue_status_flags f.wait_flags
  have hdrop := armWait_not_mem_dropEvents env
  unfold InputEventFuture.poll at herr ⊢
  rw [if_neg h1, if_neg h2] at herr ⊢
  rcases hpr : NtUserGetQueueStatusReadonly env
      (make_dword f.queue_status_flags f.wait_flags) with ⟨r, tr⟩
  rw [hpr] at herr hdw
  replace hdw : tr = _ ∨ tr = _ := hdw
  have htr : Event.armWait ∉ tr := by
    rcases hdw with h | h <;> subst h <;> simp
  rcases r with e1 | v
  · exact ⟨h0, hw, htr⟩
  · simp only at herr ⊢
    by_cases hv : v > 0
    · rw [if_pos hv] at herr
      exact absurd herr (by simp)
    · rw [if_neg hv] at herr ⊢
      rcases hcw : env.createWait with e1 | u
      · rw [hcw] at herr
        refine ⟨h0, hw, ?_⟩
        simp [htr]
      · rw [hcw] at herr
        rcases hcie : ConfiguredInputEvent.new env
            f.queue_status_flags f.wait_flags with ⟨rc, tr2⟩
        rw [hcie] at herr hct
        replace hct : tr2 = _ ∨ tr2 = _ := hct
        have htr2 : Event.armWait ∉ tr2 := by
          rcases hct with h | h <;> subst h <;> simp
        rcases rc with e1 | u2
        · refine ⟨h0, hw, ?_⟩
          simp [htr, htr2]
        · simp only at herr ⊢
          by_cases hqa : f.queue_status_flags &&& MWMO_QUEUEATTACH ≠ 0
          · rw [if_pos hqa] at herr ⊢
            rcases hq : env.queueAttach with e1 | v2
            · rw [hq] at herr
              refine ⟨h0, hw, ?_⟩
              rcases hie : f.input_event with _ | u3 <;>
                simp [hie, htr, htr2, hdrop]
            · rw [hq] at herr
              exact absurd herr (pollArmTail_no_err env cx _ _ e)
          · rw [if_neg hqa] at herr
            exact absurd herr (pollArmTail_no_err env cx _ _ e)

/-- Concrete run of C9: the probe fails on the first poll. -/
theorem c9_error_atomicity_witness :
    ((InputEventFuture.new 0 0).poll envProbeFail 0).2.1.shared.state =
      InputEventFutureState.NotPending ∧
    ((InputEventFuture.new 0 0).poll envProbeFail 0).2.1.shared.waker = none ∧
    Event.armWait ∉ ((InputEventFuture.new 0 0).poll envProbeFail 0).2.2 :=
  c9_error_atomicity envProbeFail 0 5 (InputEventFuture.new 0 0) rfl rfl (by decide)

/-! ### C10 -/

/-- Claim C10, polling after resolution: once the shared state is `Ready`,
a poll returns `Poll::Ready(Ok(MessageIterator::default()))`, takes the
input-event and pool-wait fields out (leaving `None`/null), emits no panic
(given the clear-wake-mask contract), and every subsequent poll — under any
environment — again returns `Ready` with a fresh iterator and an empty
trace, because the releases operate on already-empty fields. -/
theorem c10_poll_after_ready (env : Env) (cx : Nat) (f : InputEventFuture)
    (h0 : f.shared.state = InputEventFutureState.Ready)
    (hc : env.clearWakeMaskOk = true) :
    (f.poll env cx).1 = PollRes.ReadyOk ∧
    (f.poll env cx).2.1.input_event = none ∧
    (f.poll env cx).2.1.ptp_wait = false ∧
    Event.fatal ∉ (f.poll env cx).2.2 ∧
    (∀ env2 cx2, InputEventFuture.poll env2 cx2 (f.poll env cx).2.1 =
      (PollRes.ReadyOk, (f.poll env cx).2.1, [])) := by
  have hpoll : f.poll env cx =
      (PollRes.ReadyOk, (f.ready env).1, (f.ready env).2) := by
    unfold InputEventFuture.poll
    rw [if_pos h0]
  rw [hpoll]
  refine ⟨rfl, rfl, rfl, ?_, ?_⟩
  · unfold InputEventFuture.ready ConfiguredInputEvent.dropEvents
    rcases f.input_event with _ | u <;> rcases hpt : f.ptp_wait <;> simp [hc]
  · intro env2 cx2
    have hst : ((f.ready env).1).shared.state = InputEventFutureState.Ready := by
      rw [ready_shared, h0]
    unfold InputEventFuture.poll
    rw [if_pos hst]
    rfl

/-- Concrete run of C10 on a resolved future holding both resources. -/
theorem c10_poll_after_ready_witness :
    (futReadyFull.poll envOk 0).1 = PollRes.ReadyOk ∧
    (futReadyFull.poll envOk 0).2.1.input_event = none ∧
    (futReadyFull.poll envOk 0).2.1.ptp_wait = false := by
  have h := c10_poll_after_ready envOk 0 futReadyFull rfl rfl
  exact ⟨h.1, h.2.1, h.2.2.1⟩

/-! ### C5 -/

/-- Claim C5, idempotent drop: under the kernel-bookkeeping invariants
(wake mask set only while the input event is held, pool wait existing or
armed only while the owned wait handle is held) and the clear-wake-mask
contract, dropping the future in any state leaves the wake mask cleared
and no pool wait in existence or armed; the destructor performs the
`Pending → Cancelled` compare-exchange, attempts the disarm exactly when
that compare-exchange succeeds, and blocks for in-flight callbacks exactly
when the disarm call reports the wait already firing. -/
theorem c5_drop (env : Env) (f : InputEventFuture) (k : KState)
    (hwm : k.wakeMaskSet = true → f.input_event.isSome = true)
    (hex : k.waitExists = true → f.ptp_wait = true)
    (har : k.waitArmed = true → f.ptp_wait = true)
    (hc : env.clearWakeMaskOk = true) :
    (runK k (f.drop env).2).wakeMaskSet = false ∧
    (runK k (f.drop env).2).waitExists = false ∧
    (runK k (f.drop env).2).waitArmed = false ∧
    ((f.drop env).1.shared.state =
      if f.shared.state = InputEventFutureState.Pending
      then InputEventFutureState.Cancelled else f.shared.state) ∧
    (Event.disarmWait ∈ (f.drop env).2 ↔
      f.shared.state = InputEventFutureState.Pending) ∧
    (Event.waitForCallbacks ∈ (f.drop env).2 ↔
      (f.shared.state = InputEventFutureState.Pending ∧
        env.disarmUnset = false)) := by
  obtain ⟨km, ke, ka⟩ := k
  by_cases hp : f.shared.state = InputEventFutureState.Pending <;>
    rcases hie : f.input_event with _ | u <;>
    cases hpt : f.ptp_wait <;>
    cases hdu : env.disarmUnset <;>
    cases km <;> cases ke <;> cases ka <;>
    simp_all [InputEventFuture.drop, ConfiguredInputEvent.dropEvents,
      runK, kstep]

/-- Concrete run of C5: dropping an armed pending future while the disarm
call reports the wait already firing. -/
theorem c5_drop_witness :
    (runK kAll (futArmed.drop envFire).2).wakeMaskSet = false ∧
    (runK kAll (futArmed.drop envFire).2).waitExists = false ∧
    (runK kAll (futArmed.drop envFire).2).waitArmed = false := by
  have h := c5_drop envFire futArmed kAll
    (fun _ => rfl) (fun _ => rfl) (fun _ => rfl) rfl
  exact ⟨h.1, h.2.1, h.2.2.1⟩
